import Mathlib

/-!
Verification development for a disk-backed page cache: a disk manager
(paged view over a heap file with monotonic page-id allocation) and a
buffer pool manager (clock replacement, page table, pin tracking by
reference-count exclusivity).

The definitions below are a shallow embedding of the source:
* `DiskManager` models `disk.rs`: the heap file is byte-addressed data
  plus a length; `read_page_data` fails exactly on a short read
  (end of file before `PAGE_SIZE` bytes).
* `BufferPool` / `BufferPoolManager` model `buffer.rs`.  A `Frame`
  carries a `handles` field that models the number of outstanding
  `Rc` clones held by callers (the `Rc` strong count minus the pool's
  own reference); `Rc::get_mut(..).is_some()` corresponds to
  `handles = 0`.  The `ever_bound` field is ghost state: it records
  whether the frame ever completed a successful fetch-miss or create
  binding, and never influences control flow.
* Machine integers (`u64`, `usize`) are modelled by `Nat`; the only
  subtraction in the source (`usage_count -= 1`) is guarded by a
  `usage_count == 0` check, so `Nat` subtraction agrees with it.
* The clock sweep `evict` is a loop; it is embedded with explicit fuel
  (`evictFuel`), and `evictBound` is proved sufficient below, so the
  wrapper `BufferPool.evict` computes the loop's behaviour.
* Panics of the source (`Rc::get_mut(..).unwrap()`, vector indexing
  out of bounds) are the explicit outcome `crash`.
-/

def PAGE_SIZE : Nat := 4096

/-- A page is its byte content; only indices below `PAGE_SIZE` are
meaningful. -/
def Page : Type := Nat → Nat

/-- Bytewise equality of the meaningful `PAGE_SIZE` bytes. -/
def PageEq (x y : Page) : Prop := ∀ i, i < PAGE_SIZE → x i = y i

/-- The heap file: byte content and current length. -/
structure HeapFile where
  data : Nat → Nat
  size : Nat

inductive DiskError where
  | fmt
  | shortRead
deriving DecidableEq

structure DiskManager where
  heap_file : HeapFile
  next_page_id : Nat

/-- `DiskManager::new`: fails unless the file length is a multiple of
`PAGE_SIZE`; the next-id counter is the length divided by `PAGE_SIZE`. -/
def DiskManager.new (f : HeapFile) : Except DiskError DiskManager :=
  if f.size % PAGE_SIZE ≠ 0 then .error .fmt
  else .ok ⟨f, f.size / PAGE_SIZE⟩

/-- `DiskManager::allocate_page`: returns the counter and post-increments. -/
def DiskManager.allocate_page (d : DiskManager) : Nat × DiskManager :=
  (d.next_page_id, { d with next_page_id := d.next_page_id + 1 })

/-- Writing `PAGE_SIZE` bytes at a file offset; a seek past end of file
zero-fills the gap, and the file grows to cover the written range. -/
def HeapFile.writeAt (f : HeapFile) (off : Nat) (buf : Page) : HeapFile :=
  { data := fun a =>
      if off ≤ a ∧ a < off + PAGE_SIZE then buf (a - off)
      else if f.size ≤ a ∧ a < off then 0
      else f.data a,
    size := max f.size (off + PAGE_SIZE) }

/-- `DiskManager::write_page_data`: seek to `page_id * PAGE_SIZE` and
write the whole buffer. -/
def DiskManager.write_page_data (d : DiskManager) (pid : Nat) (buf : Page) :
    Except DiskError DiskManager :=
  .ok { d with heap_file := d.heap_file.writeAt (pid * PAGE_SIZE) buf }

/-- `DiskManager::read_page_data`: seek to `page_id * PAGE_SIZE` and read
exactly `PAGE_SIZE` bytes; a short read (end of file first) is an error. -/
def DiskManager.read_page_data (d : DiskManager) (pid : Nat) :
    Except DiskError Page :=
  if pid * PAGE_SIZE + PAGE_SIZE ≤ d.heap_file.size then
    .ok (fun j => d.heap_file.data (pid * PAGE_SIZE + j))
  else .error .shortRead

/-- The disk holds byte pattern `b` at page `p` (a read returns `b`). -/
def diskHolds (d : DiskManager) (p : Nat) (b : Page) : Prop :=
  ∃ pg, d.read_page_data p = .ok pg ∧ PageEq pg b

structure Buffer where
  page_id : Nat
  page : Page
  is_dirty : Bool

/-- `Buffer::default()`: sentinel page id `0`, zero bytes, clean. -/
def Buffer.default : Buffer := ⟨0, fun _ => 0, false⟩

structure Frame where
  usage_count : Nat
  buffer : Buffer
  handles : Nat
  ever_bound : Bool

/-- `Frame::default()`; `handles = 0` (no outstanding clones) and the
ghost `ever_bound` starts false. -/
def Frame.default : Frame := ⟨0, Buffer.default, 0, false⟩

structure BufferPool where
  frames : List Frame
  next_victim_id : Nat

/-- `BufferPool::new(pool_size)`. -/
def BufferPool.new (pool_size : Nat) : BufferPool :=
  ⟨List.replicate pool_size Frame.default, 0⟩

/-- Result of the clock sweep: the chosen victim together with the pool
state it leaves behind (`cursor` is `next_victim_id` afterwards), or no
victim, or a panic of the source (index out of bounds). -/
inductive EvictOutcome where
  | victim (bid : Nat) (frames : List Frame) (cursor : Nat)
  | noVictim (frames : List Frame) (cursor : Nat)
  | crash

/-- One clock sweep with explicit fuel; `none` means the fuel ran out
(shown impossible for `evictBound` fuel below).  Mirrors
`BufferPool::evict`: a frame with `usage_count == 0` is the victim
(cursor not advanced); otherwise an unreferenced frame is decremented
and the consecutive counter resets; a referenced frame bumps the
consecutive counter, and reaching `pool_size` returns no victim. -/
def evictFuel : Nat → List Frame → Nat → Nat → Option EvictOutcome
  | 0, _, _, _ => none
  | fuel + 1, frames, cursor, cnt =>
    match frames[cursor]? with
    | none => some .crash
    | some fr =>
      if fr.usage_count = 0 then
        some (.victim cursor frames cursor)
      else if fr.handles = 0 then
        evictFuel fuel
          (frames.set cursor { fr with usage_count := fr.usage_count - 1 })
          ((cursor + 1) % frames.length) 0
      else if frames.length ≤ cnt + 1 then
        some (.noVictim frames cursor)
      else
        evictFuel fuel frames ((cursor + 1) % frames.length) (cnt + 1)

def sumUsage (frames : List Frame) : Nat :=
  (frames.map (fun f => f.usage_count)).sum

/-- Fuel that always suffices for the sweep (proved below). -/
def evictBound (frames : List Frame) : Nat :=
  sumUsage frames * (frames.length + 1) + frames.length + 1

/-- `BufferPool::evict`.  The fuel default can never fire (sufficiency is
proved below), so this computes exactly the source loop. -/
def BufferPool.evict (p : BufferPool) : EvictOutcome :=
  match evictFuel (evictBound p.frames) p.frames p.next_victim_id 0 with
  | some r => r
  | none => .crash

inductive BufErr where
  | NoFreeBuffer
  | Io
deriving DecidableEq

structure BufferPoolManager where
  disk : DiskManager
  pool : BufferPool
  page_table : List (Nat × Nat)

/-- Result of `fetch_page` / `create_page`: a handle (the buffer id whose
frame's `handles` count was bumped) with the new state, an error with
the state the partial execution leaves behind, or a panic. -/
inductive OpResult where
  | ok (s : BufferPoolManager) (bid : Nat)
  | err (e : BufErr) (s : BufferPoolManager)
  | crash

/-- `HashMap::get` on the page table. -/
def ptGet (pt : List (Nat × Nat)) (k : Nat) : Option Nat :=
  match pt with
  | [] => none
  | (a, b) :: rest => if a = k then some b else ptGet rest k

/-- `HashMap::remove`. -/
def ptRemove (pt : List (Nat × Nat)) (k : Nat) : List (Nat × Nat) :=
  pt.filter (fun e => e.1 ≠ k)

/-- `HashMap::insert` (replaces any existing binding of the key). -/
def ptInsert (pt : List (Nat × Nat)) (k v : Nat) : List (Nat × Nat) :=
  (k, v) :: ptRemove pt k

/-- `BufferPoolManager::fetch_page`. -/
def BufferPoolManager.fetch_page (s : BufferPoolManager) (page_id : Nat) :
    OpResult :=
  match ptGet s.page_table page_id with
  | some bid =>
    match s.pool.frames[bid]? with
    | none => .crash
    | some fr =>
      .ok { s with pool := { s.pool with
              frames := s.pool.frames.set bid
                { fr with usage_count := fr.usage_count + 1,
                          handles := fr.handles + 1 } } } bid
  | none =>
    match s.pool.evict with
    | .crash => .crash
    | .noVictim fr cu => .err .NoFreeBuffer { s with pool := ⟨fr, cu⟩ }
    | .victim bid frames1 cu =>
      match frames1[bid]? with
      | none => .crash
      | some fr =>
        if fr.handles ≠ 0 then .crash
        else
          let evict_page_id := fr.buffer.page_id
          match (if fr.buffer.is_dirty then
                   s.disk.write_page_data evict_page_id fr.buffer.page
                 else .ok s.disk) with
          | .error _ => .err .Io { s with pool := ⟨frames1, cu⟩ }
          | .ok d1 =>
            match d1.read_page_data page_id with
            | .error _ =>
              .err .Io
                { s with
                    disk := d1,
                    pool := ⟨frames1.set bid
                      { fr with buffer := { fr.buffer with
                          page_id := page_id, is_dirty := false } }, cu⟩ }
            | .ok pg =>
              .ok { disk := d1,
                    pool := ⟨frames1.set bid
                      { fr with
                        buffer := ⟨page_id, pg, false⟩,
                        usage_count := 1,
                        handles := fr.handles + 1,
                        ever_bound := true }, cu⟩,
                    page_table :=
                      ptInsert (ptRemove s.page_table evict_page_id)
                        page_id bid } bid

/-- `BufferPoolManager::create_page`. -/
def BufferPoolManager.create_page (s : BufferPoolManager) : OpResult :=
  match s.pool.evict with
  | .crash => .crash
  | .noVictim fr cu => .err .NoFreeBuffer { s with pool := ⟨fr, cu⟩ }
  | .victim bid frames1 cu =>
    match frames1[bid]? with
    | none => .crash
    | some fr =>
      if fr.handles ≠ 0 then .crash
      else
        let evict_page_id := fr.buffer.page_id
        match (if fr.buffer.is_dirty then
                 s.disk.write_page_data evict_page_id fr.buffer.page
               else .ok s.disk) with
        | .error _ => .err .Io { s with pool := ⟨frames1, cu⟩ }
        | .ok d1 =>
          let alloc := d1.allocate_page
          .ok { disk := alloc.2,
                pool := ⟨frames1.set bid
                  { fr with
                    buffer := ⟨alloc.1, fun _ => 0, true⟩,
                    usage_count := 1,
                    handles := fr.handles + 1,
                    ever_bound := true }, cu⟩,
                page_table :=
                  ptInsert (ptRemove s.page_table evict_page_id)
                    alloc.1 bid } bid

/-- A caller drops one outstanding handle to frame `bid` (the `Rc` clone
goes out of scope). -/
def dropHandle (s : BufferPoolManager) (bid : Nat) : BufferPoolManager :=
  match s.pool.frames[bid]? with
  | some fr =>
    if fr.handles = 0 then s
    else { s with pool := { s.pool with
        frames := s.pool.frames.set bid
          { fr with handles := fr.handles - 1 } } }
  | none => s

/-- A caller writes the page bytes through an outstanding handle
(`buffer.page.borrow_mut()`); a no-op without a handle. -/
def callerWrite (s : BufferPoolManager) (bid : Nat) (pg : Page) :
    BufferPoolManager :=
  match s.pool.frames[bid]? with
  | some fr =>
    if fr.handles = 0 then s
    else { s with pool := { s.pool with
        frames := s.pool.frames.set bid
          { fr with buffer := { fr.buffer with page := pg } } } }
  | none => s

/-- A caller sets the dirty flag through an outstanding handle
(`buffer.is_dirty.set(b)`); a no-op without a handle. -/
def callerMark (s : BufferPoolManager) (bid : Nat) (b : Bool) :
    BufferPoolManager :=
  match s.pool.frames[bid]? with
  | some fr =>
    if fr.handles = 0 then s
    else { s with pool := { s.pool with
        frames := s.pool.frames.set bid
          { fr with buffer := { fr.buffer with is_dirty := b } } } }
  | none => s

/-- `BufferPoolManager::new(disk, pool)` on a fresh pool. -/
def initBPM (d : DiskManager) (pool_size : Nat) : BufferPoolManager :=
  ⟨d, BufferPool.new pool_size, []⟩

/-- Invariant I1: every page-table entry's frame holds that page id. -/
def I1 (s : BufferPoolManager) : Prop :=
  ∀ e ∈ s.page_table,
    (s.pool.frames[e.2]?).map (fun f => f.buffer.page_id) = some e.1

/-- Invariant I2: no two page-table entries share a buffer id. -/
def I2 (s : BufferPoolManager) : Prop :=
  s.page_table.Pairwise (fun a b => a.2 ≠ b.2)

/-- Total number of outstanding caller handles. -/
def totalHandles (frames : List Frame) : Nat :=
  (frames.map (fun f => f.handles)).sum

/-- States reachable from a freshly constructed manager (pool size at
least one) by `fetch_page` / `create_page` calls (succeeding or failing),
handle drops, and caller writes through handles. -/
inductive Reach : BufferPoolManager → Prop where
  | init (d : DiskManager) (n : Nat) (h : 1 ≤ n) : Reach (initBPM d n)
  | fetch_ok (s s' : BufferPoolManager) (pid bid : Nat) : Reach s →
      s.fetch_page pid = .ok s' bid → Reach s'
  | fetch_err (s s' : BufferPoolManager) (e : BufErr) (pid : Nat) : Reach s →
      s.fetch_page pid = .err e s' → Reach s'
  | create_ok (s s' : BufferPoolManager) (bid : Nat) : Reach s →
      s.create_page = .ok s' bid → Reach s'
  | create_err (s s' : BufferPoolManager) (e : BufErr) : Reach s →
      s.create_page = .err e s' → Reach s'
  | drop (s : BufferPoolManager) (bid : Nat) : Reach s →
      Reach (dropHandle s bid)
  | write (s : BufferPoolManager) (bid : Nat) (pg : Page) : Reach s →
      Reach (callerWrite s bid pg)
  | mark (s : BufferPoolManager) (bid : Nat) (b : Bool) : Reach s →
      Reach (callerMark s bid b)

/-- The master pool invariant: nonempty pool, cursor in range, every
frame's outstanding-handle count bounded by its usage count, and every
page-table value a valid frame index. -/
def PoolInv (s : BufferPoolManager) : Prop :=
  1 ≤ s.pool.frames.length ∧
  s.pool.next_victim_id < s.pool.frames.length ∧
  (∀ f ∈ s.pool.frames, f.handles ≤ f.usage_count) ∧
  (∀ e ∈ s.page_table, e.2 < s.pool.frames.length)

/-- Per-frame effect of the clock sweep: the buffer, handle count and
ghost flag are untouched; the usage count may only have been decremented,
and only on frames with no outstanding handles, so the handle bound is
preserved. -/
def FrStep (f0 f1 : Frame) : Prop :=
  f1.buffer = f0.buffer ∧ f1.handles = f0.handles ∧
  f1.ever_bound = f0.ever_bound ∧ f1.usage_count ≤ f0.usage_count ∧
  (f0.handles ≤ f0.usage_count → f1.handles ≤ f1.usage_count)

/-- Relation between the frame vector before and after a sweep. -/
def SweepRel (a b : List Frame) : Prop :=
  b.length = a.length ∧
  ∀ (i : Nat) (f1 : Frame), b[i]? = some f1 →
    ∃ f0, a[i]? = some f0 ∧ FrStep f0 f1

/-- Distance from cursor `c` forward to index `q` on a ring of size `n`. -/
def ringDist (n c q : Nat) : Nat := (q + n - c) % n

/-- Fuel needed by the sweep from consecutive-pinned count `cnt`. -/
def evictNeed (frames : List Frame) (cnt : Nat) : Nat :=
  sumUsage frames * (frames.length + 1) + (frames.length - cnt) + 1

/-- State left behind by an operation (the erroring paths also leave a
state); `dflt` is returned for a panic. -/
def resStateD (r : OpResult) (dflt : BufferPoolManager) : BufferPoolManager :=
  match r with
  | .ok st _ => st
  | .err _ st => st
  | .crash => dflt

def opOk : OpResult → Bool
  | .ok _ _ => true
  | _ => false

def opBid : OpResult → Option Nat
  | .ok _ b => some b
  | _ => none

def opErrKind : OpResult → Option BufErr
  | .err e _ => some e
  | _ => none

/-- Iterated `allocate_page`: the manager after `k` allocations. -/
def allocN (d : DiskManager) : Nat → DiskManager
  | 0 => d
  | k + 1 => (allocN d k).allocate_page.2

instance (s : BufferPoolManager) : Decidable (I1 s) := by
  unfold I1; infer_instance

instance (s : BufferPoolManager) : Decidable (I2 s) := by
  unfold I2; infer_instance

/-- An empty heap file's disk manager. -/
def dm0 : DiskManager := ⟨⟨fun _ => 0, 0⟩, 0⟩

/-- A one-page heap file whose page 0 is all `7` bytes. -/
def dm7 : DiskManager := ⟨⟨fun _ => 7, PAGE_SIZE⟩, 1⟩

/-- A two-page heap file: page 0 all `3`, page 1 all `9`. -/
def dm39 : DiskManager :=
  ⟨⟨fun a => if a < PAGE_SIZE then 3 else 9, 2 * PAGE_SIZE⟩, 2⟩

/-- C1 scenario, step 0: fresh manager, pool size 2, empty file. -/
def sB0 : BufferPoolManager := initBPM dm0 2

/-- C1 scenario after `create_page()` (page 0 lands in frame 0). -/
def sB1 : BufferPoolManager := resStateD sB0.create_page sB0

/-- C1 scenario: result of the second `create_page()`. -/
def sB2res : OpResult := sB1.create_page

/-- C1 scenario: state after the second `create_page()`. -/
def sB2 : BufferPoolManager := resStateD sB2res sB0

/-- C3 scenario, fresh manager with pool size 1. -/
def sC0 : BufferPoolManager := initBPM dm0 1

/-- C3 scenario: after `create_page()` (page 0, dirty) and dropping the
handle. -/
def sC1 : BufferPoolManager := dropHandle (resStateD sC0.create_page sC0) 0

/-- C3 scenario: result of `fetch_page(5)` (page 5 is beyond end of
file, so the read-in fails after the victim was already relabelled). -/
def sC2res : OpResult := sC1.fetch_page 5

/-- C3 scenario: state after the failing `fetch_page(5)`. -/
def sC2 : BufferPoolManager := resStateD sC2res sC0

/-- C4 scenario: pool size 2 after `create_page()` (handle held). -/
def sD1 : BufferPoolManager :=
  resStateD (initBPM dm0 2).create_page (initBPM dm0 2)

/-- C4 scenario: after a hit `fetch_page(0)`; two handles now pin the
same frame, none pins frame 1. -/
def sD2 : BufferPoolManager := resStateD (sD1.fetch_page 0) sD1

/-- A pool of one frame that is pinned (one outstanding handle) with
usage count 1. -/
def poolPinned : BufferPool := ⟨[⟨1, Buffer.default, 1, false⟩], 0⟩

/-- A manager whose single frame is pinned: `create_page` must report
no free buffer. -/
def sPinned : BufferPoolManager := ⟨dm0, poolPinned, []⟩

/-- C5 scenario: fetch page 0 of `dm39` into the single frame. -/
def sE1 : BufferPoolManager :=
  resStateD ((initBPM dm39 1).fetch_page 0) (initBPM dm39 1)

/-- C5 scenario: caller writes all-`5` bytes, marks dirty, drops. -/
def sE4 : BufferPoolManager :=
  dropHandle (callerMark (callerWrite sE1 0 (fun _ => 5)) 0 true) 0

/-- C8 witness state: pool size 1 after `create_page` (page 0 resident). -/
def sW1 : BufferPoolManager :=
  resStateD (initBPM dm0 1).create_page (initBPM dm0 1)

/-- Every frame with an outstanding handle keeps its buffer (bytes,
page id, dirty flag) across an operation. -/
def PinnedPreserved (a b : List Frame) : Prop :=
  ∀ (i : Nat) (f : Frame), a[i]? = some f → 1 ≤ f.handles →
    ∃ f', b[i]? = some f' ∧ f'.buffer = f.buffer

/-- A page-aligned heap file (one page of zeros). -/
def hfAligned : HeapFile := ⟨fun _ => 0, PAGE_SIZE⟩

/-- A heap file of 5 bytes: not page-aligned. -/
def hfBad : HeapFile := ⟨fun _ => 0, 5⟩

theorem lget_lt {α : Type} {l : List α} {i : Nat} {x : α}
    (h : l[i]? = some x) : i < l.length := by
  rcases List.getElem?_eq_some.mp h with ⟨hl, _⟩
  exact hl

theorem lget_mem {α : Type} {l : List α} {i : Nat} {x : α}
    (h : l[i]? = some x) : x ∈ l :=
  List.mem_iff_getElem?.mpr ⟨i, h⟩

theorem sumUsage_set (frames : List Frame) (i : Nat) (fr g : Frame)
    (h : frames[i]? = some fr) :
    sumUsage (frames.set i g) + fr.usage_count =
      sumUsage frames + g.usage_count := by
  induction frames generalizing i with
  | nil => simp at h
  | cons a l ih =>
    cases i with
    | zero =>
      rw [List.getElem?_cons_zero] at h
      cases h
      simp [sumUsage]
      omega
    | succ j =>
      rw [List.getElem?_cons_succ] at h
      have := ih j h
      simp [sumUsage, List.set] at this ⊢
      omega

theorem mod_two_regions (x n : Nat) (h1 : 0 < n) (h2 : x < 2 * n) :
    x % n = if x < n then x else x - n := by
  split_ifs with h
  · exact Nat.mod_eq_of_lt h
  · rw [Nat.mod_eq_sub_mod (Nat.le_of_not_lt h)]
    exact Nat.mod_eq_of_lt (by omega)

theorem ringDist_lt (n c q : Nat) (h : 0 < n) : ringDist n c q < n :=
  Nat.mod_lt _ h

theorem ringDist_zero_eq {n c q : Nat} (hc : c < n) (hq : q < n)
    (h : ringDist n c q = 0) : c = q := by
  unfold ringDist at h
  rw [mod_two_regions _ n (by omega) (by omega)] at h
  split_ifs at h <;> omega

theorem ringDist_step {n c q : Nat} (hc : c < n) (hq : q < n) (hne : c ≠ q) :
    ringDist n ((c + 1) % n) q + 1 = ringDist n c q := by
  unfold ringDist
  rw [mod_two_regions (c + 1) n (by omega) (by omega)]
  split_ifs with h1
  · rw [mod_two_regions (q + n - (c + 1)) n (by omega) (by omega),
        mod_two_regions (q + n - c) n (by omega) (by omega)]
    split_ifs <;> omega
  · have hc1 : c + 1 = n := by omega
    rw [mod_two_regions (q + n - (c + 1 - n)) n (by omega) (by omega),
        mod_two_regions (q + n - c) n (by omega) (by omega)]
    split_ifs <;> omega

theorem frStep_refl (f : Frame) : FrStep f f :=
  ⟨rfl, rfl, rfl, le_refl _, fun h => h⟩

theorem frStep_trans {a b c : Frame} (h1 : FrStep a b) (h2 : FrStep b c) :
    FrStep a c := by
  obtain ⟨e1, e2, e3, e4, e5⟩ := h1
  obtain ⟨g1, g2, g3, g4, g5⟩ := h2
  exact ⟨g1.trans e1, g2.trans e2, g3.trans e3, g4.trans e4,
    fun h => g5 (e5 h)⟩

theorem sweepRel_refl (a : List Frame) : SweepRel a a :=
  ⟨rfl, fun _ f1 h => ⟨f1, h, frStep_refl f1⟩⟩

theorem sweepRel_trans {a b c : List Frame} (h1 : SweepRel a b)
    (h2 : SweepRel b c) : SweepRel a c := by
  refine ⟨h2.1.trans h1.1, fun i f1 hg => ?_⟩
  obtain ⟨fm, hgm, hsm⟩ := h2.2 i f1 hg
  obtain ⟨f0, hg0, hs0⟩ := h1.2 i fm hgm
  exact ⟨f0, hg0, frStep_trans hs0 hsm⟩

theorem sweepRel_set_dec {frames : List Frame} {cursor : Nat} {fr : Frame}
    (hget : frames[cursor]? = some fr) (hh : fr.handles = 0) :
    SweepRel frames
      (frames.set cursor { fr with usage_count := fr.usage_count - 1 }) := by
  refine ⟨List.length_set frames cursor _, fun i f1 hg => ?_⟩
  by_cases hic : cursor = i
  · subst hic
    rw [List.getElem?_set_eq (lget_lt hget)] at hg
    cases hg
    exact ⟨fr, hget, rfl, rfl, rfl, Nat.sub_le _ _, fun _ => by simp [hh]⟩
  · rw [List.getElem?_set_ne hic] at hg
    exact ⟨f1, hg, frStep_refl f1⟩

theorem evictFuel_mono (f : Nat) :
    ∀ (f' : Nat) (frames : List Frame) (cursor cnt : Nat) (r : EvictOutcome),
    evictFuel f frames cursor cnt = some r → f ≤ f' →
    evictFuel f' frames cursor cnt = some r := by
  induction f with
  | zero =>
    intro f' frames cursor cnt r h _
    simp [evictFuel] at h
  | succ f ih =>
    intro f' frames cursor cnt r h hle
    obtain ⟨f'', rfl⟩ : ∃ f'', f' = f'' + 1 := ⟨f' - 1, by omega⟩
    rw [evictFuel] at h ⊢
    cases hg : frames[cursor]? with
    | none => rw [hg] at h; exact h
    | some fr =>
      rw [hg] at h
      simp only at h ⊢
      split_ifs at h ⊢ with h1 h2 h3
      · exact h
      · exact ih _ _ _ _ _ h (by omega)
      · exact h
      · exact ih _ _ _ _ _ h (by omega)

theorem evictFuel_suff (fuel : Nat) :
    ∀ (frames : List Frame) (cursor cnt : Nat),
    evictNeed frames cnt ≤ fuel → cnt < frames.length →
    evictFuel fuel frames cursor cnt ≠ none := by
  induction fuel with
  | zero =>
    intro frames cursor cnt hF _
    exfalso
    unfold evictNeed at hF
    omega
  | succ fuel ih =>
    intro frames cursor cnt hF hcnt
    rw [evictFuel]
    cases hg : frames[cursor]? with
    | none => simp
    | some fr =>
      simp only
      split_ifs with h1 h2 h3
      · simp
      · -- decrement branch
        apply ih
        · have hset := sumUsage_set frames cursor fr
            { fr with usage_count := fr.usage_count - 1 } hg
          have hlen : (frames.set cursor
              { fr with usage_count := fr.usage_count - 1 }).length =
              frames.length := List.length_set frames cursor _
          unfold evictNeed at hF ⊢
          rw [hlen]
          have hS : sumUsage frames = sumUsage (frames.set cursor
              { fr with usage_count := fr.usage_count - 1 }) + 1 := by
            simp only at hset
            omega
          rw [hS] at hF
          have h2 : (sumUsage (frames.set cursor
              { fr with usage_count := fr.usage_count - 1 }) + 1) *
              (frames.length + 1) =
              sumUsage (frames.set cursor
                { fr with usage_count := fr.usage_count - 1 }) *
              (frames.length + 1) + (frames.length + 1) := by ring
          omega
        · rw [List.length_set]
          omega
      · simp
      · -- pinned, keep sweeping
        apply ih
        · unfold evictNeed at hF ⊢
          omega
        · omega

theorem evictFuel_no_crash (fuel : Nat) :
    ∀ (frames : List Frame) (cursor cnt : Nat),
    cursor < frames.length →
    evictFuel fuel frames cursor cnt ≠ some .crash := by
  induction fuel with
  | zero => intro frames cursor cnt _; simp [evictFuel]
  | succ fuel ih =>
    intro frames cursor cnt hc
    rw [evictFuel]
    rw [List.getElem?_eq_getElem hc]
    simp only
    split_ifs with h1 h2 h3
    · simp
    · exact ih _ _ _ (by rw [List.length_set]; exact Nat.mod_lt _ (by omega))
    · simp
    · exact ih _ _ _ (Nat.mod_lt _ (by omega))

theorem evictFuel_victim (fuel : Nat) :
    ∀ (frames : List Frame) (cursor cnt b cu : Nat) (fr : List Frame),
    evictFuel fuel frames cursor cnt = some (.victim b fr cu) →
    cu = b ∧ SweepRel frames fr ∧
      ∃ fb, fr[b]? = some fb ∧ fb.usage_count = 0 ∧ b < fr.length := by
  induction fuel with
  | zero => intro frames cursor cnt b cu fr h; simp [evictFuel] at h
  | succ fuel ih =>
    intro frames cursor cnt b cu fr h
    rw [evictFuel] at h
    cases hg : frames[cursor]? with
    | none => rw [hg] at h; simp at h
    | some f0 =>
      rw [hg] at h
      simp only at h
      split_ifs at h with h1 h2 h3
      · -- immediate victim
        cases h
        exact ⟨rfl, sweepRel_refl _, f0, hg, h1, lget_lt hg⟩
      · -- decrement branch
        obtain ⟨e1, e2, e3⟩ := ih _ _ _ _ _ _ h
        exact ⟨e1, sweepRel_trans (sweepRel_set_dec hg h2) e2, e3⟩
      · simp at h
      · exact ih _ _ _ _ _ _ h

theorem evictFuel_unpinned (fuel : Nat) :
    ∀ (frames : List Frame) (cursor cnt q : Nat) (fq : Frame),
    frames[q]? = some fq → fq.handles = 0 → cursor < frames.length →
    cnt + ringDist frames.length cursor q < frames.length →
    ∀ (fr : List Frame) (cu : Nat),
    evictFuel fuel frames cursor cnt ≠ some (.noVictim fr cu) := by
  induction fuel with
  | zero =>
    intro frames cursor cnt q fq _ _ _ _ fr cu
    simp [evictFuel]
  | succ fuel ih =>
    intro frames cursor cnt q fq hq hqh hc hring fr cu
    rw [evictFuel]
    rw [List.getElem?_eq_getElem hc]
    simp only
    split_ifs with h1 h2 h3
    · simp
    · -- decrement branch: the unpinned frame survives the set
      by_cases hcq : cursor = q
      · subst hcq
        apply ih _ ((cursor + 1) % frames.length) 0 cursor
          { usage_count := frames[cursor].usage_count - 1,
            buffer := frames[cursor].buffer,
            handles := frames[cursor].handles,
            ever_bound := frames[cursor].ever_bound }
          (List.getElem?_set_eq hc) h2
        · rw [List.length_set]
          exact Nat.mod_lt _ (by omega)
        · rw [List.length_set]
          have := ringDist_lt frames.length ((cursor + 1) % frames.length)
            cursor (by omega)
          omega
      · apply ih _ _ _ q fq
        · rw [List.getElem?_set_ne hcq]; exact hq
        · exact hqh
        · rw [List.length_set]; exact Nat.mod_lt _ (by omega)
        · rw [List.length_set]
          have := ringDist_lt frames.length ((cursor + 1) % frames.length)
            q (by omega)
          omega
    · -- would return noVictim: contradiction with the unpinned frame
      intro hcontra
      cases hcontra
      have hqlt : q < frames.length := lget_lt hq
      have hzero : ringDist frames.length cursor q = 0 := by omega
      have : cursor = q := ringDist_zero_eq hc hqlt hzero
      subst this
      rw [List.getElem?_eq_getElem hc] at hq
      cases hq
      exact h2 hqh
    · -- pinned, keep sweeping
      have hqlt : q < frames.length := lget_lt hq
      have hcq : cursor ≠ q := by
        intro e
        subst e
        rw [List.getElem?_eq_getElem hc] at hq
        cases hq
        exact h2 hqh
      apply ih _ _ _ q fq hq hqh (Nat.mod_lt _ (by omega))
      have hstep := ringDist_step hc hqlt hcq
      omega

theorem evictFuel_allPinned (fuel : Nat) :
    ∀ (frames : List Frame) (cursor cnt : Nat),
    (∀ (i : Nat) (fi : Frame), frames[i]? = some fi → fi.handles ≠ 0) →
    cursor < frames.length → cnt < frames.length →
    frames.length - cnt ≤ fuel →
    ∃ r, evictFuel fuel frames cursor cnt = some r ∧
      ((∃ b, r = .victim b frames b) ∨
       (∃ cu, r = .noVictim frames cu ∧ cu < frames.length)) := by
  induction fuel with
  | zero => intro frames cursor cnt _ _ hcnt hfuel; omega
  | succ fuel ih =>
    intro frames cursor cnt hpin hc hcnt hfuel
    rw [evictFuel]
    rw [List.getElem?_eq_getElem hc]
    simp only
    split_ifs with h1 h2 h3
    · exact ⟨_, rfl, Or.inl ⟨cursor, rfl⟩⟩
    · exact absurd h2 (hpin cursor _ (List.getElem?_eq_getElem hc))
    · exact ⟨_, rfl, Or.inr ⟨cursor, rfl, hc⟩⟩
    · exact ih _ _ _ hpin (Nat.mod_lt _ (by omega)) (by omega) (by omega)

theorem evictNeed_zero (frames : List Frame) :
    evictNeed frames 0 = evictBound frames := by
  unfold evictNeed evictBound
  omega

theorem evict_eq_fuel (p : BufferPool) (h1 : 1 ≤ p.frames.length)
    (h2 : p.next_victim_id < p.frames.length) :
    evictFuel (evictBound p.frames) p.frames p.next_victim_id 0 =
      some p.evict := by
  unfold BufferPool.evict
  cases hf : evictFuel (evictBound p.frames) p.frames p.next_victim_id 0 with
  | none =>
    exact absurd hf
      (evictFuel_suff _ _ _ _ (le_of_eq (evictNeed_zero p.frames)) h1)
  | some r => rfl

theorem evict_victim_facts {p : BufferPool} {b cu : Nat} {fr : List Frame}
    (h : p.evict = .victim b fr cu) :
    cu = b ∧ SweepRel p.frames fr ∧
      ∃ fb, fr[b]? = some fb ∧ fb.usage_count = 0 ∧ b < fr.length := by
  unfold BufferPool.evict at h
  cases hf : evictFuel (evictBound p.frames) p.frames p.next_victim_id 0 with
  | none => rw [hf] at h; cases h
  | some r =>
    rw [hf] at h
    simp only at h
    subst h
    exact evictFuel_victim _ _ _ _ _ _ _ hf

theorem evict_noVictim_facts {p : BufferPool} {cu : Nat} {fr : List Frame}
    (h1 : 1 ≤ p.frames.length) (h2 : p.next_victim_id < p.frames.length)
    (h : p.evict = .noVictim fr cu) :
    fr = p.frames ∧ cu < p.frames.length ∧
      (∀ (i : Nat) (fi : Frame), p.frames[i]? = some fi → fi.handles ≠ 0) ∧
      evictFuel (2 * p.frames.length) p.frames p.next_victim_id 0 =
        some (.noVictim fr cu) := by
  have hf := evict_eq_fuel p h1 h2
  rw [h] at hf
  have hpin : ∀ (i : Nat) (fi : Frame), p.frames[i]? = some fi →
      fi.handles ≠ 0 := by
    intro i fi hget hfi0
    exact evictFuel_unpinned _ _ _ _ _ _ hget hfi0 h2
      (by
        have := ringDist_lt p.frames.length p.next_victim_id i (by omega)
        omega) fr cu hf
  obtain ⟨r, hr, hshape⟩ := evictFuel_allPinned p.frames.length p.frames
    p.next_victim_id 0 hpin h2 (by omega) (by omega)
  have hbound : p.frames.length ≤ evictBound p.frames := by
    unfold evictBound
    omega
  have hr2 := evictFuel_mono _ _ _ _ _ _ hr hbound
  rw [hf] at hr2
  cases hr2
  rcases hshape with ⟨bb, hbb⟩ | ⟨cc, hcc, hcclt⟩
  · cases hbb
  · cases hcc
    exact ⟨rfl, hcclt, hpin,
      evictFuel_mono _ _ _ _ _ _ hr (by omega)⟩

theorem evict_ne_crash {p : BufferPool} (h1 : 1 ≤ p.frames.length)
    (h2 : p.next_victim_id < p.frames.length) : p.evict ≠ .crash := by
  have hf := evict_eq_fuel p h1 h2
  intro hc
  rw [hc] at hf
  exact evictFuel_no_crash _ _ _ _ h2 hf

theorem sweepRel_handles_le {a b : List Frame} (h : SweepRel a b)
    (ha : ∀ f ∈ a, f.handles ≤ f.usage_count) :
    ∀ f ∈ b, f.handles ≤ f.usage_count := by
  intro f hf
  obtain ⟨i, hget⟩ := List.getElem?_of_mem hf
  obtain ⟨f0, hget0, hstep⟩ := h.2 i f hget
  exact hstep.2.2.2.2 (ha f0 (lget_mem hget0))

theorem fetch_hit_eq {s : BufferPoolManager} {pid bid : Nat} {fr : Frame}
    (h1 : ptGet s.page_table pid = some bid)
    (h2 : s.pool.frames[bid]? = some fr) :
    s.fetch_page pid =
      .ok { s with pool := { s.pool with
              frames := s.pool.frames.set bid
                { fr with usage_count := fr.usage_count + 1,
                          handles := fr.handles + 1 } } } bid := by
  unfold BufferPoolManager.fetch_page
  rw [h1]
  simp only
  rw [h2]

theorem fetch_hit_crash {s : BufferPoolManager} {pid bid : Nat}
    (h1 : ptGet s.page_table pid = some bid)
    (h2 : s.pool.frames[bid]? = none) :
    s.fetch_page pid = .crash := by
  unfold BufferPoolManager.fetch_page
  rw [h1]
  simp only
  rw [h2]

theorem fetch_noVictim_eq {s : BufferPoolManager} {pid cu : Nat}
    {fr : List Frame}
    (h1 : ptGet s.page_table pid = none)
    (h2 : s.pool.evict = .noVictim fr cu) :
    s.fetch_page pid = .err .NoFreeBuffer { s with pool := ⟨fr, cu⟩ } := by
  unfold BufferPoolManager.fetch_page
  rw [h1]
  simp only
  rw [h2]

theorem fetch_victim_readErr_eq {s : BufferPoolManager}
    {pid bid cu : Nat} {frames1 : List Frame} {fb : Frame}
    {d1 : DiskManager} {er : DiskError}
    (h1 : ptGet s.page_table pid = none)
    (h2 : s.pool.evict = .victim bid frames1 cu)
    (h3 : frames1[bid]? = some fb)
    (h4 : fb.handles = 0)
    (hw : (if fb.buffer.is_dirty then
             s.disk.write_page_data fb.buffer.page_id fb.buffer.page
           else .ok s.disk) = .ok d1)
    (hr : d1.read_page_data pid = .error er) :
    s.fetch_page pid =
      .err .Io
        { s with
            disk := d1,
            pool := ⟨frames1.set bid
              { fb with buffer := { fb.buffer with
                  page_id := pid, is_dirty := false } }, cu⟩ } := by
  unfold BufferPoolManager.fetch_page
  simp [h1, h2, h3, h4, hw, hr]

theorem fetch_victim_ok_eq {s : BufferPoolManager}
    {pid bid cu : Nat} {frames1 : List Frame} {fb : Frame}
    {d1 : DiskManager} {pg : Page}
    (h1 : ptGet s.page_table pid = none)
    (h2 : s.pool.evict = .victim bid frames1 cu)
    (h3 : frames1[bid]? = some fb)
    (h4 : fb.handles = 0)
    (hw : (if fb.buffer.is_dirty then
             s.disk.write_page_data fb.buffer.page_id fb.buffer.page
           else .ok s.disk) = .ok d1)
    (hr : d1.read_page_data pid = .ok pg) :
    s.fetch_page pid =
      .ok { disk := d1,
            pool := ⟨frames1.set bid
              { fb with
                buffer := ⟨pid, pg, false⟩,
                usage_count := 1,
                handles := fb.handles + 1,
                ever_bound := true }, cu⟩,
            page_table :=
              ptInsert (ptRemove s.page_table fb.buffer.page_id) pid bid }
        bid := by
  unfold BufferPoolManager.fetch_page
  simp [h1, h2, h3, h4, hw, hr]

theorem create_noVictim_eq {s : BufferPoolManager} {cu : Nat}
    {fr : List Frame}
    (h2 : s.pool.evict = .noVictim fr cu) :
    s.create_page = .err .NoFreeBuffer { s with pool := ⟨fr, cu⟩ } := by
  unfold BufferPoolManager.create_page
  rw [h2]

theorem create_victim_eq {s : BufferPoolManager}
    {bid cu : Nat} {frames1 : List Frame} {fb : Frame}
    {d1 : DiskManager}
    (h2 : s.pool.evict = .victim bid frames1 cu)
    (h3 : frames1[bid]? = some fb)
    (h4 : fb.handles = 0)
    (hw : (if fb.buffer.is_dirty then
             s.disk.write_page_data fb.buffer.page_id fb.buffer.page
           else .ok s.disk) = .ok d1) :
    s.create_page =
      .ok { disk := d1.allocate_page.2,
            pool := ⟨frames1.set bid
              { fb with
                buffer := ⟨d1.allocate_page.1, fun _ => 0, true⟩,
                usage_count := 1,
                handles := fb.handles + 1,
                ever_bound := true }, cu⟩,
            page_table :=
              ptInsert (ptRemove s.page_table fb.buffer.page_id)
                d1.allocate_page.1 bid }
        bid := by
  unfold BufferPoolManager.create_page
  simp [h2, h3, h4, hw]

theorem wb_ok (c : Bool) (d : DiskManager) (p : Nat) (b : Page) :
    ∃ d1, (if c = true then d.write_page_data p b else Except.ok d) =
      .ok d1 := by
  cases c
  · exact ⟨d, rfl⟩
  · exact ⟨_, rfl⟩

theorem ptGet_mem {pt : List (Nat × Nat)} {k b : Nat}
    (h : ptGet pt k = some b) : (k, b) ∈ pt := by
  induction pt with
  | nil => simp [ptGet] at h
  | cons e rest ih =>
    obtain ⟨a, v⟩ := e
    rw [ptGet] at h
    split_ifs at h with he
    · cases h
      subst he
      exact List.mem_cons_self _ _
    · exact List.mem_cons_of_mem _ (ih h)

theorem ptRemove_subset {pt : List (Nat × Nat)} {k : Nat} {e : Nat × Nat}
    (h : e ∈ ptRemove pt k) : e ∈ pt :=
  List.mem_of_mem_filter h

theorem ptInsert_mem {pt : List (Nat × Nat)} {k v : Nat} {e : Nat × Nat}
    (h : e ∈ ptInsert pt k v) : e = (k, v) ∨ e ∈ pt := by
  rcases List.mem_cons.mp h with h1 | h1
  · exact Or.inl h1
  · exact Or.inr (ptRemove_subset h1)

theorem evict_victim_inv {s : BufferPoolManager} (hInv : PoolInv s)
    {bid cu : Nat} {frames1 : List Frame}
    (h : s.pool.evict = .victim bid frames1 cu) :
    ∃ fb, frames1[bid]? = some fb ∧ fb.handles = 0 ∧ fb.usage_count = 0 ∧
      cu = bid ∧ SweepRel s.pool.frames frames1 ∧ bid < frames1.length ∧
      frames1.length = s.pool.frames.length ∧
      (∀ f ∈ frames1, f.handles ≤ f.usage_count) := by
  obtain ⟨hcu, hrel, fb, hfb, hu0, hblt⟩ := evict_victim_facts h
  have hh := sweepRel_handles_le hrel hInv.2.2.1
  have h0 : fb.handles = 0 := by
    have := hh fb (lget_mem hfb)
    omega
  exact ⟨fb, hfb, h0, hu0, hcu, hrel, hblt, hrel.1, hh⟩

theorem pinnedPreserved_refl (a : List Frame) : PinnedPreserved a a :=
  fun _ f h _ => ⟨f, h, rfl⟩

theorem pinnedPreserved_victim {a frames1 : List Frame} {bid : Nat}
    {fb g : Frame} (hs : SweepRel a frames1)
    (hfb : frames1[bid]? = some fb) (h0 : fb.handles = 0) :
    PinnedPreserved a (frames1.set bid g) := by
  intro i f hai hpin
  by_cases hib : i = bid
  · subst hib
    obtain ⟨f0, ha0, hstep⟩ := hs.2 i fb hfb
    rw [hai] at ha0
    cases ha0
    rw [hstep.2.1] at h0
    omega
  · have hilen : i < frames1.length := by
      rw [hs.1]
      exact lget_lt hai
    obtain ⟨f1, hf1⟩ : ∃ f1, frames1[i]? = some f1 :=
      ⟨_, List.getElem?_eq_getElem hilen⟩
    obtain ⟨f0, ha0, hstep⟩ := hs.2 i f1 hf1
    rw [hai] at ha0
    cases ha0
    refine ⟨f1, ?_, hstep.1⟩
    rw [List.getElem?_set_ne (fun e => hib e.symm)]
    exact hf1

theorem pinnedPreserved_hit {a : List Frame} {bid : Nat} {fr g : Frame}
    (hfr : a[bid]? = some fr) (hbuf : g.buffer = fr.buffer) :
    PinnedPreserved a (a.set bid g) := by
  intro i f hai _
  by_cases hib : i = bid
  · subst hib
    rw [hai] at hfr
    cases hfr
    refine ⟨g, ?_, hbuf⟩
    exact List.getElem?_set_eq (lget_lt hai)
  · refine ⟨f, ?_, rfl⟩
    rw [List.getElem?_set_ne (fun e => hib e.symm)]
    exact hai

theorem fetch_page_spec {s : BufferPoolManager} (hInv : PoolInv s)
    (pid : Nat) :
    s.fetch_page pid ≠ .crash ∧
    (∀ s' bid, s.fetch_page pid = .ok s' bid →
       PoolInv s' ∧ PinnedPreserved s.pool.frames s'.pool.frames) ∧
    (∀ e s', s.fetch_page pid = .err e s' →
       PoolInv s' ∧ PinnedPreserved s.pool.frames s'.pool.frames ∧
       s'.page_table = s.page_table) := by
  obtain ⟨hlen, hcur, hhand, hpt⟩ := hInv
  cases hpt0 : ptGet s.page_table pid with
  | some bid =>
    have hbid : bid < s.pool.frames.length := hpt (pid, bid) (ptGet_mem hpt0)
    obtain ⟨fr, hfr⟩ : ∃ fr, s.pool.frames[bid]? = some fr :=
      ⟨_, List.getElem?_eq_getElem hbid⟩
    rw [fetch_hit_eq hpt0 hfr]
    refine ⟨by simp, ?_, ?_⟩
    · rintro s' bid' h
      cases h
      refine ⟨⟨?_, ?_, ?_, ?_⟩, ?_⟩
      · simpa using hlen
      · simpa using hcur
      · intro f hf
        rcases List.mem_or_eq_of_mem_set hf with hf1 | hf1
        · exact hhand f hf1
        · subst hf1
          have := hhand fr (lget_mem hfr)
          simp only
          omega
      · simpa using hpt
      · exact pinnedPreserved_hit hfr rfl
    · rintro e s' h
      cases h
  | none =>
    cases hev : s.pool.evict with
    | crash => exact absurd hev (evict_ne_crash hlen hcur)
    | noVictim fr cu =>
      obtain ⟨hfr_eq, hcu, hpin, _⟩ := evict_noVictim_facts hlen hcur hev
      subst hfr_eq
      rw [fetch_noVictim_eq hpt0 hev]
      refine ⟨by simp, ?_, ?_⟩
      · rintro s' bid' h
        cases h
      · rintro e s' h
        cases h
        exact ⟨⟨hlen, hcu, hhand, hpt⟩, pinnedPreserved_refl _, rfl⟩
    | victim bid frames1 cu =>
      obtain ⟨fb, hfb, h0, hu0, hcueq, hrel, hblt, hlen1, hh1⟩ :=
        evict_victim_inv ⟨hlen, hcur, hhand, hpt⟩ hev
      subst hcueq
      obtain ⟨d1, hw⟩ := wb_ok fb.buffer.is_dirty s.disk
        fb.buffer.page_id fb.buffer.page
      cases hr : d1.read_page_data pid with
      | error er =>
        rw [fetch_victim_readErr_eq hpt0 hev hfb h0 hw hr]
        refine ⟨by simp, ?_, ?_⟩
        · rintro s' bid' h
          cases h
        · rintro e s' h
          cases h
          refine ⟨⟨?_, ?_, ?_, ?_⟩, ?_, rfl⟩
          · simp only [List.length_set]
            omega
          · simp only [List.length_set]
            omega
          · intro f hf
            rcases List.mem_or_eq_of_mem_set hf with hf1 | hf1
            · exact hh1 f hf1
            · subst hf1
              simp only
              omega
          · simp only [List.length_set]
            intro e he
            have := hpt e he
            omega
          · exact pinnedPreserved_victim hrel hfb h0
      | ok pg =>
        rw [fetch_victim_ok_eq hpt0 hev hfb h0 hw hr]
        refine ⟨by simp, ?_, ?_⟩
        · rintro s' bid' h
          cases h
          refine ⟨⟨?_, ?_, ?_, ?_⟩, ?_⟩
          · simp only [List.length_set]
            omega
          · simp only [List.length_set]
            omega
          · intro f hf
            rcases List.mem_or_eq_of_mem_set hf with hf1 | hf1
            · exact hh1 f hf1
            · subst hf1
              simp only
              omega
          · simp only [List.length_set]
            intro e he
            rcases ptInsert_mem he with he1 | he1
            · subst he1
              simpa using hblt
            · have := hpt e (ptRemove_subset he1)
              omega
          · exact pinnedPreserved_victim hrel hfb h0
        · rintro e s' h
          cases h

theorem create_page_spec {s : BufferPoolManager} (hInv : PoolInv s) :
    s.create_page ≠ .crash ∧
    (∀ s' bid, s.create_page = .ok s' bid →
       PoolInv s' ∧ PinnedPreserved s.pool.frames s'.pool.frames) ∧
    (∀ e s', s.create_page = .err e s' →
       PoolInv s' ∧ PinnedPreserved s.pool.frames s'.pool.frames ∧
       s'.page_table = s.page_table) := by
  obtain ⟨hlen, hcur, hhand, hpt⟩ := hInv
  cases hev : s.pool.evict with
  | crash => exact absurd hev (evict_ne_crash hlen hcur)
  | noVictim fr cu =>
    obtain ⟨hfr_eq, hcu, hpin, _⟩ := evict_noVictim_facts hlen hcur hev
    subst hfr_eq
    rw [create_noVictim_eq hev]
    refine ⟨by simp, ?_, ?_⟩
    · rintro s' bid' h
      cases h
    · rintro e s' h
      cases h
      exact ⟨⟨hlen, hcu, hhand, hpt⟩, pinnedPreserved_refl _, rfl⟩
  | victim bid frames1 cu =>
    obtain ⟨fb, hfb, h0, hu0, hcueq, hrel, hblt, hlen1, hh1⟩ :=
      evict_victim_inv ⟨hlen, hcur, hhand, hpt⟩ hev
    subst hcueq
    obtain ⟨d1, hw⟩ := wb_ok fb.buffer.is_dirty s.disk
      fb.buffer.page_id fb.buffer.page
    rw [create_victim_eq hev hfb h0 hw]
    refine ⟨by simp, ?_, ?_⟩
    · rintro s' bid' h
      cases h
      refine ⟨⟨?_, ?_, ?_, ?_⟩, ?_⟩
      · simp only [List.length_set]
        omega
      · simp only [List.length_set]
        omega
      · intro f hf
        rcases List.mem_or_eq_of_mem_set hf with hf1 | hf1
        · exact hh1 f hf1
        · subst hf1
          simp only
          omega
      · simp only [List.length_set]
        intro e he
        rcases ptInsert_mem he with he1 | he1
        · subst he1
          simpa using hblt
        · have := hpt e (ptRemove_subset he1)
          omega
      · exact pinnedPreserved_victim hrel hfb h0
    · rintro e s' h
      cases h

theorem poolInv_set {s : BufferPoolManager} (hInv : PoolInv s) {bid : Nat}
    {g : Frame} (hg : g.handles ≤ g.usage_count) :
    PoolInv { s with pool := { s.pool with
        frames := s.pool.frames.set bid g } } := by
  obtain ⟨hlen, hcur, hhand, hpt⟩ := hInv
  refine ⟨?_, ?_, ?_, ?_⟩
  · simpa using hlen
  · simpa using hcur
  · intro f hf
    rcases List.mem_or_eq_of_mem_set hf with hf1 | hf1
    · exact hhand f hf1
    · subst hf1
      exact hg
  · simpa using hpt

theorem inv_drop {s : BufferPoolManager} (hInv : PoolInv s) (bid : Nat) :
    PoolInv (dropHandle s bid) := by
  unfold dropHandle
  cases hfr : s.pool.frames[bid]? with
  | none => exact hInv
  | some fr =>
    simp only
    split_ifs with h0
    · exact hInv
    · have := hInv.2.2.1 fr (lget_mem hfr)
      exact poolInv_set hInv (by simp only; omega)

theorem inv_callerWrite {s : BufferPoolManager} (hInv : PoolInv s)
    (bid : Nat) (pg : Page) : PoolInv (callerWrite s bid pg) := by
  unfold callerWrite
  cases hfr : s.pool.frames[bid]? with
  | none => exact hInv
  | some fr =>
    simp only
    split_ifs with h0
    · exact hInv
    · have := hInv.2.2.1 fr (lget_mem hfr)
      exact poolInv_set hInv (by simp only; omega)

theorem inv_callerMark {s : BufferPoolManager} (hInv : PoolInv s)
    (bid : Nat) (b : Bool) : PoolInv (callerMark s bid b) := by
  unfold callerMark
  cases hfr : s.pool.frames[bid]? with
  | none => exact hInv
  | some fr =>
    simp only
    split_ifs with h0
    · exact hInv
    · have := hInv.2.2.1 fr (lget_mem hfr)
      exact poolInv_set hInv (by simp only; omega)

theorem inv_init (d : DiskManager) (n : Nat) (h : 1 ≤ n) :
    PoolInv (initBPM d n) := by
  refine ⟨?_, ?_, ?_, ?_⟩
  · simpa [initBPM, BufferPool.new] using h
  · simpa [initBPM, BufferPool.new] using h
  · intro f hf
    have := List.eq_of_mem_replicate
      (by simpa [initBPM, BufferPool.new] using hf)
    subst this
    exact le_refl _
  · intro e he
    simp [initBPM] at he

theorem reach_inv {s : BufferPoolManager} (h : Reach s) : PoolInv s := by
  induction h with
  | init d n hn => exact inv_init d n hn
  | fetch_ok s s' pid bid _ hstep ih =>
    exact ((fetch_page_spec ih pid).2.1 s' bid hstep).1
  | fetch_err s s' e pid _ hstep ih =>
    exact ((fetch_page_spec ih pid).2.2 e s' hstep).1
  | create_ok s s' bid _ hstep ih =>
    exact ((create_page_spec ih).2.1 s' bid hstep).1
  | create_err s s' e _ hstep ih =>
    exact ((create_page_spec ih).2.2 e s' hstep).1
  | drop s bid _ ih => exact inv_drop ih bid
  | write s bid pg _ ih => exact inv_callerWrite ih bid pg
  | mark s bid b _ ih => exact inv_callerMark ih bid b

theorem fetch_evict_crash {s : BufferPoolManager} {pid : Nat}
    (h1 : ptGet s.page_table pid = none)
    (h2 : s.pool.evict = .crash) : s.fetch_page pid = .crash := by
  unfold BufferPoolManager.fetch_page
  simp [h1, h2]

theorem fetch_victim_crash_none {s : BufferPoolManager}
    {pid bid cu : Nat} {frames1 : List Frame}
    (h1 : ptGet s.page_table pid = none)
    (h2 : s.pool.evict = .victim bid frames1 cu)
    (h3 : frames1[bid]? = none) : s.fetch_page pid = .crash := by
  unfold BufferPoolManager.fetch_page
  simp [h1, h2, h3]

theorem fetch_victim_crash_pinned {s : BufferPoolManager}
    {pid bid cu : Nat} {frames1 : List Frame} {fb : Frame}
    (h1 : ptGet s.page_table pid = none)
    (h2 : s.pool.evict = .victim bid frames1 cu)
    (h3 : frames1[bid]? = some fb)
    (h4 : fb.handles ≠ 0) : s.fetch_page pid = .crash := by
  unfold BufferPoolManager.fetch_page
  simp [h1, h2, h3, h4]

theorem create_evict_crash {s : BufferPoolManager}
    (h2 : s.pool.evict = .crash) : s.create_page = .crash := by
  unfold BufferPoolManager.create_page
  simp [h2]

theorem create_victim_crash_none {s : BufferPoolManager}
    {bid cu : Nat} {frames1 : List Frame}
    (h2 : s.pool.evict = .victim bid frames1 cu)
    (h3 : frames1[bid]? = none) : s.create_page = .crash := by
  unfold BufferPoolManager.create_page
  simp [h2, h3]

theorem create_victim_crash_pinned {s : BufferPoolManager}
    {bid cu : Nat} {frames1 : List Frame} {fb : Frame}
    (h2 : s.pool.evict = .victim bid frames1 cu)
    (h3 : frames1[bid]? = some fb)
    (h4 : fb.handles ≠ 0) : s.create_page = .crash := by
  unfold BufferPoolManager.create_page
  simp [h2, h3, h4]

theorem write_read_self {d d' : DiskManager} {p : Nat} {buf : Page}
    (h : d.write_page_data p buf = .ok d') : diskHolds d' p buf := by
  unfold DiskManager.write_page_data at h
  cases h
  refine ⟨fun j => (d.heap_file.writeAt (p * PAGE_SIZE) buf).data
    (p * PAGE_SIZE + j), ?_, ?_⟩
  · unfold DiskManager.read_page_data
    rw [if_pos]
    unfold HeapFile.writeAt
    simp only
    omega
  · intro i hi
    unfold HeapFile.writeAt
    simp only
    rw [if_pos (by omega)]
    congr 1
    omega

theorem write_other_preserves {d : DiskManager} {p : Nat} {b : Page}
    {q : Nat} {bf : Page} {d' : DiskManager}
    (hd : diskHolds d p b) (hne : q ≠ p)
    (hw : d.write_page_data q bf = .ok d') : diskHolds d' p b := by
  obtain ⟨pg, hread, heq⟩ := hd
  unfold DiskManager.read_page_data at hread
  split_ifs at hread with hsz
  · cases hread
    unfold DiskManager.write_page_data at hw
    cases hw
    refine ⟨fun j => (d.heap_file.writeAt (q * PAGE_SIZE) bf).data
      (p * PAGE_SIZE + j), ?_, ?_⟩
    · unfold DiskManager.read_page_data
      rw [if_pos]
      unfold HeapFile.writeAt
      simp only
      omega
    · intro i hi
      unfold HeapFile.writeAt
      simp only
      have hP : PAGE_SIZE = 4096 := rfl
      have hrange : ¬(q * PAGE_SIZE ≤ p * PAGE_SIZE + i ∧
          p * PAGE_SIZE + i < q * PAGE_SIZE + PAGE_SIZE) := by
        rw [hP] at hi ⊢
        rcases Nat.lt_or_ge q p with hqp | hqp <;> omega
      rw [if_neg hrange, if_neg (by omega)]
      exact heq i hi

theorem length_le_totalHandles {l : List Frame}
    (h : ∀ f ∈ l, 1 ≤ f.handles) : l.length ≤ totalHandles l := by
  induction l with
  | nil => simp [totalHandles]
  | cons a rest ih =>
    have ha := h a (List.mem_cons_self _ _)
    have hr := ih (fun f hf => h f (List.mem_cons_of_mem _ hf))
    simp only [totalHandles, List.map_cons, List.sum_cons, List.length_cons]
    simp only [totalHandles] at hr
    omega

theorem exists_unpinned {frames : List Frame}
    (h : totalHandles frames + 1 ≤ frames.length) :
    ∃ (q : Nat) (fq : Frame), frames[q]? = some fq ∧ fq.handles = 0 := by
  by_contra hno
  push_neg at hno
  have hall : ∀ f ∈ frames, 1 ≤ f.handles := by
    intro f hf
    obtain ⟨i, hi⟩ := List.getElem?_of_mem hf
    have := hno i f hi
    omega
  have := length_le_totalHandles hall
  omega

theorem wb_next {c : Bool} {d d1 : DiskManager} {p : Nat} {b : Page}
    (hw : (if c = true then d.write_page_data p b else Except.ok d) =
      .ok d1) : d1.next_page_id = d.next_page_id := by
  cases c
  · simp at hw
    cases hw
    rfl
  · simp only [if_pos rfl] at hw
    unfold DiskManager.write_page_data at hw
    cases hw
    rfl

theorem allocN_next (d : DiskManager) (k : Nat) :
    (allocN d k).next_page_id = d.next_page_id + k := by
  induction k with
  | zero => rfl
  | succ k ih =>
    show ((allocN d k).allocate_page.2).next_page_id = _
    unfold DiskManager.allocate_page
    simp only
    omega

/-- Claim C6: a successful `create_page` returns a handle to frame `bid`
whose buffer has all-zero bytes, page id equal to the allocator counter
before the call, `dirty = true`, and `usage_count = 1`; the counter
advances by exactly one.  On any error (`NoFreeBuffer`, or an I/O error
during victim write-back, which precedes allocation) the counter is
unchanged. -/
theorem C6_create_page_spec :
    (∀ (s s' : BufferPoolManager) (bid : Nat),
       s.create_page = .ok s' bid →
       ∃ f, s'.pool.frames[bid]? = some f ∧
         f.buffer.page = (fun _ => 0) ∧
         f.buffer.page_id = s.disk.next_page_id ∧
         f.buffer.is_dirty = true ∧
         f.usage_count = 1 ∧
         s'.disk.next_page_id = s.disk.next_page_id + 1) ∧
    (∀ (s : BufferPoolManager) (e : BufErr) (s' : BufferPoolManager),
       s.create_page = .err e s' →
       s'.disk.next_page_id = s.disk.next_page_id) := by
  constructor
  · intro s s' bid h
    cases hev : s.pool.evict with
    | crash => rw [create_evict_crash hev] at h; cases h
    | noVictim fr cu => rw [create_noVictim_eq hev] at h; cases h
    | victim bid1 frames1 cu =>
      cases hfb : frames1[bid1]? with
      | none => rw [create_victim_crash_none hev hfb] at h; cases h
      | some fb =>
        by_cases h0 : fb.handles = 0
        · obtain ⟨d1, hw⟩ := wb_ok fb.buffer.is_dirty s.disk
            fb.buffer.page_id fb.buffer.page
          rw [create_victim_eq hev hfb h0 hw] at h
          cases h
          refine ⟨_, List.getElem?_set_eq (lget_lt hfb), rfl, ?_, rfl, rfl,
            ?_⟩
          · show d1.next_page_id = s.disk.next_page_id
            exact wb_next hw
          · show d1.next_page_id + 1 = s.disk.next_page_id + 1
            rw [wb_next hw]
        · rw [create_victim_crash_pinned hev hfb h0] at h; cases h
  · intro s e s' h
    cases hev : s.pool.evict with
    | crash => rw [create_evict_crash hev] at h; cases h
    | noVictim fr cu =>
      rw [create_noVictim_eq hev] at h
      cases h
      rfl
    | victim bid1 frames1 cu =>
      cases hfb : frames1[bid1]? with
      | none => rw [create_victim_crash_none hev hfb] at h; cases h
      | some fb =>
        by_cases h0 : fb.handles = 0
        · obtain ⟨d1, hw⟩ := wb_ok fb.buffer.is_dirty s.disk
            fb.buffer.page_id fb.buffer.page
          rw [create_victim_eq hev hfb h0 hw] at h
          cases h
        · rw [create_victim_crash_pinned hev hfb h0] at h; cases h

/-- Claim C7: the clock sweep terminates within the computed fuel for a
nonempty pool; a no-victim return is reached within `2 · pool_size` loop
steps; a frame with `usage_count = 0` is the victim immediately and the
cursor does not advance; an unpinned frame with positive count is
decremented by exactly one and resets the consecutive-pinned counter; a
pinned frame's count is untouched while the counter and cursor advance. -/
theorem C7_clock_sweep :
    (∀ p : BufferPool, 1 ≤ p.frames.length →
       evictFuel (evictBound p.frames) p.frames p.next_victim_id 0 ≠
         none) ∧
    (∀ (p : BufferPool) (fr : List Frame) (cu : Nat),
       1 ≤ p.frames.length → p.next_victim_id < p.frames.length →
       p.evict = .noVictim fr cu →
       evictFuel (2 * p.frames.length) p.frames p.next_victim_id 0 =
         some (.noVictim fr cu)) ∧
    (∀ (fuel : Nat) (frames : List Frame) (cursor cnt : Nat) (fr : Frame),
       frames[cursor]? = some fr → fr.usage_count = 0 →
       evictFuel (fuel + 1) frames cursor cnt =
         some (.victim cursor frames cursor)) ∧
    (∀ (fuel : Nat) (frames : List Frame) (cursor cnt : Nat) (fr : Frame),
       frames[cursor]? = some fr → fr.usage_count ≠ 0 → fr.handles = 0 →
       evictFuel (fuel + 1) frames cursor cnt =
         evictFuel fuel
           (frames.set cursor
             { fr with usage_count := fr.usage_count - 1 })
           ((cursor + 1) % frames.length) 0) ∧
    (∀ (fuel : Nat) (frames : List Frame) (cursor cnt : Nat) (fr : Frame),
       frames[cursor]? = some fr → fr.usage_count ≠ 0 → fr.handles ≠ 0 →
       cnt + 1 < frames.length →
       evictFuel (fuel + 1) frames cursor cnt =
         evictFuel fuel frames ((cursor + 1) % frames.length) (cnt + 1)) :=
  by
  refine ⟨?_, ?_, ?_, ?_, ?_⟩
  · intro p h
    exact evictFuel_suff _ _ _ _ (le_of_eq (evictNeed_zero _)) h
  · intro p fr cu h1 h2 hnv
    exact (evict_noVictim_facts h1 h2 hnv).2.2.2
  · intro fuel frames cursor cnt fr hget hu
    rw [evictFuel, hget]
    simp [hu]
  · intro fuel frames cursor cnt fr hget hu hh
    rw [evictFuel, hget]
    simp [hu, hh]
  · intro fuel frames cursor cnt fr hget hu hh hcnt
    rw [evictFuel, hget]
    simp only [if_neg hu, if_neg hh, if_neg (by omega : ¬frames.length ≤ cnt + 1)]

/-- Claim C9: `DiskManager::new` fails with a format error exactly when
the file length is not a multiple of `PAGE_SIZE`; on success the next-id
counter starts at `length / PAGE_SIZE` and the `k`-th subsequent
`allocate_page` returns `length / PAGE_SIZE + k`. -/
theorem C9_disk_manager_new (f : HeapFile) :
    (f.size % PAGE_SIZE ≠ 0 → DiskManager.new f = .error .fmt) ∧
    (f.size % PAGE_SIZE = 0 →
      ∃ d, DiskManager.new f = .ok d ∧
        d.next_page_id = f.size / PAGE_SIZE ∧
        ∀ k, (allocN d k).allocate_page.1 = f.size / PAGE_SIZE + k) := by
  constructor
  · intro h
    unfold DiskManager.new
    rw [if_pos h]
  · intro h
    refine ⟨⟨f, f.size / PAGE_SIZE⟩, ?_, rfl, ?_⟩
    · unfold DiskManager.new
      rw [if_neg (by omega)]
    · intro k
      show (allocN ⟨f, f.size / PAGE_SIZE⟩ k).next_page_id = _
      rw [allocN_next]

/-- Claim C10: a pool of size zero is accepted by the constructor, but
`fetch_page` and `create_page` on it panic (index out of range in the
sweep) instead of reporting no free buffer; for every nonempty pool with
the cursor in range the sweep never panics (the index stays in range and
the guarded decrement cannot underflow). -/
theorem C10_zero_pool_panics :
    (BufferPool.new 0).frames = [] ∧
    (∀ (d : DiskManager) (pid : Nat),
       (initBPM d 0).fetch_page pid = .crash) ∧
    (∀ d : DiskManager, (initBPM d 0).create_page = .crash) ∧
    (∀ p : BufferPool, 1 ≤ p.frames.length →
       p.next_victim_id < p.frames.length → p.evict ≠ .crash) := by
  refine ⟨rfl, ?_, ?_, ?_⟩
  · intro d pid
    rfl
  · intro d
    rfl
  · intro p h1 h2
    exact evict_ne_crash h1 h2

theorem C6_create_page_spec_witness :
    (∃ f, sB1.pool.frames[0]? = some f ∧
       f.buffer.page = (fun _ => 0) ∧
       f.buffer.page_id = sB0.disk.next_page_id ∧
       f.buffer.is_dirty = true ∧ f.usage_count = 1 ∧
       sB1.disk.next_page_id = sB0.disk.next_page_id + 1) ∧
    (resStateD sPinned.create_page sPinned).disk.next_page_id =
      sPinned.disk.next_page_id :=
  ⟨C6_create_page_spec.1 sB0 sB1 0 rfl,
   C6_create_page_spec.2 sPinned .NoFreeBuffer
     (resStateD sPinned.create_page sPinned) rfl⟩

theorem C7_clock_sweep_witness :
    evictFuel (evictBound (BufferPool.new 1).frames)
      (BufferPool.new 1).frames 0 0 ≠ none ∧
    evictFuel (2 * poolPinned.frames.length) poolPinned.frames
      poolPinned.next_victim_id 0 =
      some (.noVictim poolPinned.frames 0) ∧
    evictFuel 1 [Frame.default] 0 0 =
      some (.victim 0 [Frame.default] 0) ∧
    evictFuel 1 [⟨2, Buffer.default, 0, false⟩] 0 0 =
      evictFuel 0 [⟨1, Buffer.default, 0, false⟩] 0 0 ∧
    evictFuel 1 [⟨1, Buffer.default, 1, false⟩, ⟨1, Buffer.default, 1, false⟩]
      0 0 =
      evictFuel 0
        [⟨1, Buffer.default, 1, false⟩, ⟨1, Buffer.default, 1, false⟩] 1 1 :=
  ⟨C7_clock_sweep.1 (BufferPool.new 1) (by decide),
   C7_clock_sweep.2.1 poolPinned poolPinned.frames 0 (by decide) (by decide)
     rfl,
   C7_clock_sweep.2.2.1 0 [Frame.default] 0 0 Frame.default rfl rfl,
   C7_clock_sweep.2.2.2.1 0 [⟨2, Buffer.default, 0, false⟩] 0 0
     ⟨2, Buffer.default, 0, false⟩ rfl (by decide) rfl,
   C7_clock_sweep.2.2.2.2 0
     [⟨1, Buffer.default, 1, false⟩, ⟨1, Buffer.default, 1, false⟩] 0 0
     ⟨1, Buffer.default, 1, false⟩ rfl (by decide) (by decide) (by decide)⟩

theorem C9_disk_manager_new_witness :
    DiskManager.new hfBad = .error .fmt ∧
    (∃ d, DiskManager.new hfAligned = .ok d ∧
       d.next_page_id = hfAligned.size / PAGE_SIZE ∧
       ∀ k, (allocN d k).allocate_page.1 =
         hfAligned.size / PAGE_SIZE + k) :=
  ⟨(C9_disk_manager_new hfBad).1 (by decide),
   (C9_disk_manager_new hfAligned).2 (by decide)⟩

theorem C10_zero_pool_panics_witness :
    (initBPM dm0 0).fetch_page 3 = .crash ∧
    (initBPM dm0 0).create_page = .crash ∧
    (BufferPool.new 1).evict ≠ .crash :=
  ⟨C10_zero_pool_panics.2.1 dm0 3, C10_zero_pool_panics.2.2.1 dm0,
   C10_zero_pool_panics.2.2.2 (BufferPool.new 1) (by decide) (by decide)⟩

/-- Claim C1 (code bug): starting from a fresh manager with pool size 2
over an empty heap file, two successful `create_page` calls (no I/O
errors anywhere) leave frame 0 still bound to live page 0
(`page_id = 0`, ghost `ever_bound = true`), yet the page table has no
entry for page 0 and none for frame 0: evicting the never-used frame 1
removed page 0's entry, because frame 1's sentinel `page_id` default is
`0` and collides with the first allocated id.  I1 and I2 themselves
still hold on this state; the exactly-one-entry-per-bound-frame part of
the claim is violated. -/
theorem C1_sentinel_eviction_bug :
    opOk sB0.create_page = true ∧
    opOk sB2res = true ∧
    sB2.page_table = [(1, 1)] ∧
    (sB2.pool.frames[0]?).map (fun f => f.buffer.page_id) = some 0 ∧
    (sB2.pool.frames[0]?).map (fun f => f.ever_bound) = some true ∧
    ptGet sB2.page_table 0 = none ∧
    (∀ e ∈ sB2.page_table, e.2 ≠ 0) ∧
    I1 sB2 ∧ I2 sB2 := by
  decide

/-- Claim C3 counterexample: from a reachable state (pool size 1, page 0
created dirty and released), `fetch_page(5)` fails with an I/O error on
read-in; the page table is unchanged — still mapping page 0 to frame 0 —
but the frame's buffer now carries `page_id = 5`, so invariant I1 does
not hold on the resulting state, contradicting the claim that I1–I5
survive every erroring call. -/
theorem C3_io_error_breaks_I1 :
    opErrKind sC2res = some .Io ∧
    sC2.page_table = sC1.page_table ∧
    ptGet sC2.page_table 0 = some 0 ∧
    (sC2.pool.frames[0]?).map (fun f => f.buffer.page_id) = some 5 ∧
    ¬ I1 sC2 := by
  decide

/-- Claim C3 (amended): if `fetch_page` or `create_page` returns an
error, the page table is unchanged by that call — page-table mutations
happen only after successful write-back and read-in — and I2 is
preserved.  (I1 can be lost: the victim buffer's `page_id` is
overwritten before the read-in, as the counterexample shows.) -/
theorem C3_error_leaves_page_table (s : BufferPoolManager) :
    (∀ (pid : Nat) (e : BufErr) (s' : BufferPoolManager),
       s.fetch_page pid = .err e s' →
       s'.page_table = s.page_table ∧ (I2 s → I2 s')) ∧
    (∀ (e : BufErr) (s' : BufferPoolManager),
       s.create_page = .err e s' →
       s'.page_table = s.page_table ∧ (I2 s → I2 s')) := by
  constructor
  · intro pid e s' h
    cases hpt0 : ptGet s.page_table pid with
    | some bid =>
      cases hfr : s.pool.frames[bid]? with
      | none => rw [fetch_hit_crash hpt0 hfr] at h; cases h
      | some fr => rw [fetch_hit_eq hpt0 hfr] at h; cases h
    | none =>
      cases hev : s.pool.evict with
      | crash => rw [fetch_evict_crash hpt0 hev] at h; cases h
      | noVictim fr cu =>
        rw [fetch_noVictim_eq hpt0 hev] at h
        cases h
        exact ⟨rfl, fun h2 => h2⟩
      | victim bid1 frames1 cu =>
        cases hfb : frames1[bid1]? with
        | none => rw [fetch_victim_crash_none hpt0 hev hfb] at h; cases h
        | some fb =>
          by_cases h0 : fb.handles = 0
          · obtain ⟨d1, hw⟩ := wb_ok fb.buffer.is_dirty s.disk
              fb.buffer.page_id fb.buffer.page
            cases hr : d1.read_page_data pid with
            | error er =>
              rw [fetch_victim_readErr_eq hpt0 hev hfb h0 hw hr] at h
              cases h
              exact ⟨rfl, fun h2 => h2⟩
            | ok pg =>
              rw [fetch_victim_ok_eq hpt0 hev hfb h0 hw hr] at h
              cases h
          · rw [fetch_victim_crash_pinned hpt0 hev hfb h0] at h; cases h
  · intro e s' h
    cases hev : s.pool.evict with
    | crash => rw [create_evict_crash hev] at h; cases h
    | noVictim fr cu =>
      rw [create_noVictim_eq hev] at h
      cases h
      exact ⟨rfl, fun h2 => h2⟩
    | victim bid1 frames1 cu =>
      cases hfb : frames1[bid1]? with
      | none => rw [create_victim_crash_none hev hfb] at h; cases h
      | some fb =>
        by_cases h0 : fb.handles = 0
        · obtain ⟨d1, hw⟩ := wb_ok fb.buffer.is_dirty s.disk
            fb.buffer.page_id fb.buffer.page
          rw [create_victim_eq hev hfb h0 hw] at h
          cases h
        · rw [create_victim_crash_pinned hev hfb h0] at h; cases h

theorem C3_error_leaves_page_table_witness :
    sC2.page_table = sC1.page_table ∧ (I2 sC1 → I2 sC2) :=
  (C3_error_leaves_page_table sC1).1 5 .Io sC2 rfl

/-- Claim C2: on every reachable state, a victim chosen by the clock
sweep has no outstanding handle (and usage count zero), so the
`Rc::get_mut(..).unwrap()` never panics — `fetch_page` and `create_page`
never reach the `crash` outcome — and every frame with an outstanding
handle keeps its buffer (bytes and `page_id`) untouched across
`fetch_page` and `create_page`, succeeding or failing. -/
theorem C2_eviction_safety {s : BufferPoolManager} (hre : Reach s) :
    (∀ (bid cu : Nat) (frames1 : List Frame) (fb : Frame),
       s.pool.evict = .victim bid frames1 cu → frames1[bid]? = some fb →
       fb.handles = 0 ∧ fb.usage_count = 0) ∧
    (∀ pid : Nat, s.fetch_page pid ≠ .crash) ∧
    s.create_page ≠ .crash ∧
    (∀ (pid : Nat) (s' : BufferPoolManager) (bid : Nat),
       s.fetch_page pid = .ok s' bid →
       PinnedPreserved s.pool.frames s'.pool.frames) ∧
    (∀ (pid : Nat) (e : BufErr) (s' : BufferPoolManager),
       s.fetch_page pid = .err e s' →
       PinnedPreserved s.pool.frames s'.pool.frames) ∧
    (∀ (s' : BufferPoolManager) (bid : Nat),
       s.create_page = .ok s' bid →
       PinnedPreserved s.pool.frames s'.pool.frames) ∧
    (∀ (e : BufErr) (s' : BufferPoolManager),
       s.create_page = .err e s' →
       PinnedPreserved s.pool.frames s'.pool.frames) := by
  have hInv := reach_inv hre
  refine ⟨?_, fun pid => (fetch_page_spec hInv pid).1,
    (create_page_spec hInv).1,
    fun pid s' bid h => ((fetch_page_spec hInv pid).2.1 s' bid h).2,
    fun pid e s' h => ((fetch_page_spec hInv pid).2.2 e s' h).2.1,
    fun s' bid h => ((create_page_spec hInv).2.1 s' bid h).2,
    fun e s' h => ((create_page_spec hInv).2.2 e s' h).2.1⟩
  intro bid cu frames1 fb hev hfb
  obtain ⟨fb', hfb', h0, hu0, _⟩ := evict_victim_inv hInv hev
  rw [hfb] at hfb'
  cases hfb'
  exact ⟨h0, hu0⟩

theorem C2_eviction_safety_witness :
    (∀ pid : Nat, (initBPM dm0 1).fetch_page pid ≠ .crash) ∧
    sW1.create_page ≠ .crash ∧
    (Frame.default.handles = 0 ∧ Frame.default.usage_count = 0) ∧
    (∃ s', sW1.fetch_page 0 = .ok s' 0 ∧
       PinnedPreserved sW1.pool.frames s'.pool.frames) := by
  have hr0 : Reach (initBPM dm0 1) := Reach.init dm0 1 (le_refl 1)
  have hrW : Reach sW1 :=
    Reach.create_ok (initBPM dm0 1) sW1 0 hr0 rfl
  refine ⟨(C2_eviction_safety hr0).2.1, (C2_eviction_safety hrW).2.2.1,
    ?_, ?_⟩
  · exact (C2_eviction_safety hr0).1 0 0 (BufferPool.new 1).frames
      Frame.default rfl rfl
  · exact ⟨_, rfl, (C2_eviction_safety hrW).2.2.2.1 0 _ 0 rfl⟩

/-- Claim C4 (amended): on a reachable state with pool size `N`, when at
most `N − 1` handles are outstanding in total, neither `fetch_page` nor
`create_page` can fail with no-free-buffer; and when every frame has at
least one outstanding handle (N handles on N distinct frames — the
claim's "N handles outstanding" is too weak, see the counterexample),
`fetch_page` on a miss and `create_page` both fail with no-free-buffer,
leaving frames, page table and disk unchanged. -/
theorem C4_starvation_bound {s : BufferPoolManager} (hre : Reach s) :
    (totalHandles s.pool.frames + 1 ≤ s.pool.frames.length →
       (∀ (pid : Nat) (e : BufErr) (s' : BufferPoolManager),
          s.fetch_page pid = .err e s' → e ≠ .NoFreeBuffer) ∧
       (∀ (e : BufErr) (s' : BufferPoolManager),
          s.create_page = .err e s' → e ≠ .NoFreeBuffer)) ∧
    ((∀ f ∈ s.pool.frames, 1 ≤ f.handles) →
       (∀ pid : Nat, ptGet s.page_table pid = none →
          ∃ s', s.fetch_page pid = .err .NoFreeBuffer s' ∧
            s'.page_table = s.page_table ∧
            s'.pool.frames = s.pool.frames ∧ s'.disk = s.disk) ∧
       (∃ s', s.create_page = .err .NoFreeBuffer s' ∧
          s'.page_table = s.page_table ∧
          s'.pool.frames = s.pool.frames ∧ s'.disk = s.disk)) := by
  have hInv := reach_inv hre
  obtain ⟨hlen, hcur, hhand, hptb⟩ := hInv
  constructor
  · intro hslack
    obtain ⟨q, fq, hq, hq0⟩ := exists_unpinned hslack
    constructor
    · intro pid e s' h heq
      subst heq
      cases hpt0 : ptGet s.page_table pid with
      | some bid =>
        have hbid : bid < s.pool.frames.length :=
          hptb (pid, bid) (ptGet_mem hpt0)
        obtain ⟨fr, hfr⟩ : ∃ fr, s.pool.frames[bid]? = some fr :=
          ⟨_, List.getElem?_eq_getElem hbid⟩
        rw [fetch_hit_eq hpt0 hfr] at h
        cases h
      | none =>
        cases hev : s.pool.evict with
        | crash => rw [fetch_evict_crash hpt0 hev] at h; cases h
        | noVictim fr cu =>
          obtain ⟨_, _, hpin, _⟩ := evict_noVictim_facts hlen hcur hev
          exact hpin q fq hq hq0
        | victim bid1 frames1 cu =>
          obtain ⟨fb, hfb, h0, _⟩ :=
            evict_victim_inv ⟨hlen, hcur, hhand, hptb⟩ hev
          obtain ⟨d1, hw⟩ := wb_ok fb.buffer.is_dirty s.disk
            fb.buffer.page_id fb.buffer.page
          cases hr : d1.read_page_data pid with
          | error er =>
            rw [fetch_victim_readErr_eq hpt0 hev hfb h0 hw hr] at h
            simp at h
          | ok pg =>
            rw [fetch_victim_ok_eq hpt0 hev hfb h0 hw hr] at h
            cases h
    · intro e s' h heq
      subst heq
      cases hev : s.pool.evict with
      | crash => rw [create_evict_crash hev] at h; cases h
      | noVictim fr cu =>
        obtain ⟨_, _, hpin, _⟩ := evict_noVictim_facts hlen hcur hev
        exact hpin q fq hq hq0
      | victim bid1 frames1 cu =>
        obtain ⟨fb, hfb, h0, _⟩ :=
          evict_victim_inv ⟨hlen, hcur, hhand, hptb⟩ hev
        obtain ⟨d1, hw⟩ := wb_ok fb.buffer.is_dirty s.disk
          fb.buffer.page_id fb.buffer.page
        rw [create_victim_eq hev hfb h0 hw] at h
        cases h
  · intro hallpin
    have hpin' : ∀ (i : Nat) (fi : Frame), s.pool.frames[i]? = some fi →
        fi.handles ≠ 0 := by
      intro i fi hget
      have := hallpin fi (lget_mem hget)
      omega
    obtain ⟨r, hr, hshape⟩ := evictFuel_allPinned s.pool.frames.length
      s.pool.frames s.pool.next_victim_id 0 hpin' hcur (by omega)
      (by omega)
    have hevf := evict_eq_fuel s.pool hlen hcur
    have hbound : s.pool.frames.length ≤ evictBound s.pool.frames := by
      unfold evictBound
      omega
    have hr2 := evictFuel_mono _ _ _ _ _ _ hr hbound
    rw [hevf] at hr2
    cases hr2
    rcases hshape with ⟨b, hb⟩ | ⟨cu, hcu, _⟩
    · exfalso
      obtain ⟨_, _, fbv, hfbv, hfbu, _⟩ :=
        evictFuel_victim _ _ _ _ _ _ _ (hb ▸ hr)
      have h1 := hallpin fbv (lget_mem hfbv)
      have h2 := hhand fbv (lget_mem hfbv)
      omega
    · have hev : s.pool.evict = .noVictim s.pool.frames cu := hcu
      constructor
      · intro pid hpt0
        exact ⟨_, fetch_noVictim_eq hpt0 hev, rfl, rfl, rfl⟩
      · exact ⟨_, create_noVictim_eq hev, rfl, rfl, rfl⟩

/-- Claim C4 counterexample: `sD2` is reachable (pool size 2: create a
page, then fetch it again with the first handle still held), has `N = 2`
outstanding handles — both pinning frame 0 — and `create_page`
nevertheless succeeds, contradicting the claim that `N` outstanding
handles force a no-free-buffer failure. -/
theorem C4_two_handles_one_frame :
    Reach sD2 ∧ sD2.pool.frames.length = 2 ∧
    totalHandles sD2.pool.frames = 2 ∧
    opOk sD2.create_page = true := by
  refine ⟨?_, by decide, by decide, by decide⟩
  exact Reach.fetch_ok sD1 sD2 0 0
    (Reach.create_ok (initBPM dm0 2) sD1 0
      (Reach.init dm0 2 (by omega)) rfl) rfl

theorem C4_starvation_bound_witness :
    ((∀ (pid : Nat) (e : BufErr) (s' : BufferPoolManager),
        (initBPM dm0 1).fetch_page pid = .err e s' →
        e ≠ .NoFreeBuffer) ∧
     (∀ (e : BufErr) (s' : BufferPoolManager),
        (initBPM dm0 1).create_page = .err e s' → e ≠ .NoFreeBuffer)) ∧
    (∃ s', sW1.create_page = .err .NoFreeBuffer s' ∧
       s'.page_table = sW1.page_table ∧
       s'.pool.frames = sW1.pool.frames ∧ s'.disk = sW1.disk) := by
  have hr0 : Reach (initBPM dm0 1) := Reach.init dm0 1 (le_refl 1)
  have hrW : Reach sW1 :=
    Reach.create_ok (initBPM dm0 1) sW1 0 hr0 rfl
  exact ⟨(C4_starvation_bound hr0).1 (by decide),
    ((C4_starvation_bound hrW).2 (by decide)).2⟩

/-- Claim C8: for a page `p` in the page table of a reachable state, two
back-to-back `fetch_page p` calls with both handles held succeed, touch
neither the disk nor the page table, return the same buffer id whose
frame keeps the very same buffer (so the bytes seen through both handles
are identical), and each call increments that frame's usage count by
exactly one. -/
theorem C8_hit_idempotence {s : BufferPoolManager} (hre : Reach s)
    {p bid : Nat} (hpt : ptGet s.page_table p = some bid) :
    ∃ fr s1 s2,
      s.pool.frames[bid]? = some fr ∧
      s.fetch_page p = .ok s1 bid ∧
      s1.fetch_page p = .ok s2 bid ∧
      s1.disk = s.disk ∧ s2.disk = s.disk ∧
      s1.page_table = s.page_table ∧ s2.page_table = s.page_table ∧
      (s1.pool.frames[bid]?).map (fun f => f.usage_count) =
        some (fr.usage_count + 1) ∧
      (s2.pool.frames[bid]?).map (fun f => f.usage_count) =
        some (fr.usage_count + 2) ∧
      (s1.pool.frames[bid]?).map (fun f => f.buffer) = some fr.buffer ∧
      (s2.pool.frames[bid]?).map (fun f => f.buffer) = some fr.buffer := by
  have hInv := reach_inv hre
  have hbid : bid < s.pool.frames.length :=
    hInv.2.2.2 (p, bid) (ptGet_mem hpt)
  obtain ⟨fr, hfr⟩ : ∃ fr, s.pool.frames[bid]? = some fr :=
    ⟨_, List.getElem?_eq_getElem hbid⟩
  have h1 := fetch_hit_eq hpt hfr
  have hfr1 : (s.pool.frames.set bid
      { fr with usage_count := fr.usage_count + 1,
                handles := fr.handles + 1 })[bid]? =
      some { fr with usage_count := fr.usage_count + 1,
                     handles := fr.handles + 1 } :=
    List.getElem?_set_eq hbid
  have hpt1 : ptGet ({ s with pool := { s.pool with
        frames := s.pool.frames.set bid
          { fr with usage_count := fr.usage_count + 1,
                    handles := fr.handles + 1 } } } :
        BufferPoolManager).page_table p = some bid := hpt
  have h2 := fetch_hit_eq hpt1 hfr1
  have hfr2 : ((s.pool.frames.set bid
      { fr with usage_count := fr.usage_count + 1,
                handles := fr.handles + 1 }).set bid
      { { fr with usage_count := fr.usage_count + 1,
                  handles := fr.handles + 1 } with
          usage_count := fr.usage_count + 1 + 1,
          handles := fr.handles + 1 + 1 })[bid]? =
      some { fr with usage_count := fr.usage_count + 1 + 1,
                     handles := fr.handles + 1 + 1 } :=
    List.getElem?_set_eq (by rw [List.length_set]; exact hbid)
  refine ⟨fr, _, _, hfr, h1, h2, rfl, rfl, rfl, rfl, ?_, ?_, ?_, ?_⟩
  · rw [hfr1]
    rfl
  · rw [hfr2]
    rfl
  · rw [hfr1]
    rfl
  · rw [hfr2]
    rfl

theorem C8_hit_idempotence_witness :
    ∃ fr s1 s2,
      sW1.pool.frames[0]? = some fr ∧
      sW1.fetch_page 0 = .ok s1 0 ∧
      s1.fetch_page 0 = .ok s2 0 ∧
      s1.disk = sW1.disk ∧ s2.disk = sW1.disk ∧
      s1.page_table = sW1.page_table ∧ s2.page_table = sW1.page_table ∧
      (s1.pool.frames[0]?).map (fun f => f.usage_count) =
        some (fr.usage_count + 1) ∧
      (s2.pool.frames[0]?).map (fun f => f.usage_count) =
        some (fr.usage_count + 2) ∧
      (s1.pool.frames[0]?).map (fun f => f.buffer) = some fr.buffer ∧
      (s2.pool.frames[0]?).map (fun f => f.buffer) = some fr.buffer :=
  C8_hit_idempotence
    (Reach.create_ok (initBPM dm0 1) sW1 0
      (Reach.init dm0 1 (le_refl 1)) rfl) rfl

/-- Claim C5: round-trip through eviction, stated as the conjunction of
its four steps over the byte-range disk model.  (a) When a miss evicts a
dirty victim, the victim's bytes land on disk under its page id (for
`fetch_page` and `create_page` alike).  (b) A write to a different page
id leaves a held page's bytes on disk intact (pages occupy disjoint
4096-byte ranges).  (c) A miss on a page whose bytes are on disk (and
which is not resident dirty anywhere) loads exactly those bytes into the
returned buffer. -/
theorem C5_roundtrip :
    (∀ (s : BufferPoolManager) (q : Nat) (s' : BufferPoolManager)
       (bid : Nat) (f : Frame),
       ptGet s.page_table q = none → s.fetch_page q = .ok s' bid →
       s.pool.frames[bid]? = some f → f.buffer.is_dirty = true →
       diskHolds s'.disk f.buffer.page_id f.buffer.page) ∧
    (∀ (s s' : BufferPoolManager) (bid : Nat) (f : Frame),
       s.create_page = .ok s' bid →
       s.pool.frames[bid]? = some f → f.buffer.is_dirty = true →
       diskHolds s'.disk f.buffer.page_id f.buffer.page) ∧
    (∀ (d : DiskManager) (p : Nat) (b : Page) (q : Nat) (bf : Page)
       (d' : DiskManager),
       diskHolds d p b → q ≠ p → d.write_page_data q bf = .ok d' →
       diskHolds d' p b) ∧
    (∀ (s : BufferPoolManager) (p : Nat) (b : Page)
       (s' : BufferPoolManager) (bid : Nat),
       ptGet s.page_table p = none →
       (∀ f ∈ s.pool.frames,
          f.buffer.page_id ≠ p ∨ f.buffer.is_dirty = false) →
       diskHolds s.disk p b → s.fetch_page p = .ok s' bid →
       ∃ f', s'.pool.frames[bid]? = some f' ∧ f'.buffer.page_id = p ∧
         PageEq f'.buffer.page b) := by
  refine ⟨?_, ?_, ?_, ?_⟩
  · intro s q s' bid f hptq hok hf hdirty
    cases hev : s.pool.evict with
    | crash => rw [fetch_evict_crash hptq hev] at hok; cases hok
    | noVictim fr cu => rw [fetch_noVictim_eq hptq hev] at hok; cases hok
    | victim bid1 frames1 cu =>
      cases hfb : frames1[bid1]? with
      | none =>
        rw [fetch_victim_crash_none hptq hev hfb] at hok; cases hok
      | some fb =>
        by_cases h0 : fb.handles = 0
        · obtain ⟨d1, hw⟩ := wb_ok fb.buffer.is_dirty s.disk
            fb.buffer.page_id fb.buffer.page
          cases hr : d1.read_page_data q with
          | error er =>
            rw [fetch_victim_readErr_eq hptq hev hfb h0 hw hr] at hok
            cases hok
          | ok pg =>
            rw [fetch_victim_ok_eq hptq hev hfb h0 hw hr] at hok
            cases hok
            obtain ⟨_, hrel, _⟩ := evict_victim_facts hev
            obtain ⟨f0, hf0, hstep⟩ := hrel.2 bid fb hfb
            rw [hf] at hf0
            cases hf0
            have hbuf : fb.buffer = f.buffer := hstep.1
            rw [hbuf, hdirty, if_pos rfl] at hw
            show diskHolds d1 f.buffer.page_id f.buffer.page
            exact write_read_self hw
        · rw [fetch_victim_crash_pinned hptq hev hfb h0] at hok
          cases hok
  · intro s s' bid f hok hf hdirty
    cases hev : s.pool.evict with
    | crash => rw [create_evict_crash hev] at hok; cases hok
    | noVictim fr cu => rw [create_noVictim_eq hev] at hok; cases hok
    | victim bid1 frames1 cu =>
      cases hfb : frames1[bid1]? with
      | none =>
        rw [create_victim_crash_none hev hfb] at hok; cases hok
      | some fb =>
        by_cases h0 : fb.handles = 0
        · obtain ⟨d1, hw⟩ := wb_ok fb.buffer.is_dirty s.disk
            fb.buffer.page_id fb.buffer.page
          rw [create_victim_eq hev hfb h0 hw] at hok
          cases hok
          obtain ⟨_, hrel, _⟩ := evict_victim_facts hev
          obtain ⟨f0, hf0, hstep⟩ := hrel.2 bid fb hfb
          rw [hf] at hf0
          cases hf0
          have hbuf : fb.buffer = f.buffer := hstep.1
          rw [hbuf, hdirty, if_pos rfl] at hw
          have hds := write_read_self hw
          exact hds
        · rw [create_victim_crash_pinned hev hfb h0] at hok
          cases hok
  · intro d p b q bf d' hd hne hw
    exact write_other_preserves hd hne hw
  · intro s p b s' bid hptp hnores hd hok
    cases hev : s.pool.evict with
    | crash => rw [fetch_evict_crash hptp hev] at hok; cases hok
    | noVictim fr cu => rw [fetch_noVictim_eq hptp hev] at hok; cases hok
    | victim bid1 frames1 cu =>
      cases hfb : frames1[bid1]? with
      | none =>
        rw [fetch_victim_crash_none hptp hev hfb] at hok; cases hok
      | some fb =>
        by_cases h0 : fb.handles = 0
        · obtain ⟨d1, hw⟩ := wb_ok fb.buffer.is_dirty s.disk
            fb.buffer.page_id fb.buffer.page
          have hd1 : diskHolds d1 p b := by
            obtain ⟨_, hrel, _⟩ := evict_victim_facts hev
            obtain ⟨f0, hf0, hstep⟩ := hrel.2 bid1 fb hfb
            rcases hnores f0 (lget_mem hf0) with hpid | hclean
            · cases hdirty : fb.buffer.is_dirty with
              | false =>
                rw [hdirty] at hw
                simp at hw
                rw [← hw]
                exact hd
              | true =>
                rw [hdirty, if_pos rfl] at hw
                refine write_other_preserves hd ?_ hw
                rw [hstep.1]
                exact hpid
            · have : fb.buffer.is_dirty = false := by rw [hstep.1]; exact hclean
              rw [this] at hw
              simp at hw
              rw [← hw]
              exact hd
          cases hr : d1.read_page_data p with
          | error er =>
            obtain ⟨pg', hread, _⟩ := hd1
            rw [hr] at hread
            cases hread
          | ok pg =>
            rw [fetch_victim_ok_eq hptp hev hfb h0 hw hr] at hok
            cases hok
            obtain ⟨pg', hread, heqb⟩ := hd1
            rw [hr] at hread
            cases hread
            exact ⟨_, List.getElem?_set_eq (lget_lt hfb), rfl, heqb⟩
        · rw [fetch_victim_crash_pinned hptp hev hfb h0] at hok
          cases hok

theorem C5_roundtrip_witness :
    (∃ s' f, sE4.fetch_page 1 = .ok s' 0 ∧
       sE4.pool.frames[0]? = some f ∧ f.buffer.is_dirty = true ∧
       diskHolds s'.disk f.buffer.page_id f.buffer.page) ∧
    (∃ s' f, sE4.create_page = .ok s' 0 ∧
       sE4.pool.frames[0]? = some f ∧ f.buffer.is_dirty = true ∧
       diskHolds s'.disk f.buffer.page_id f.buffer.page) ∧
    (∃ d', dm7.write_page_data 1 (fun _ => 2) = .ok d' ∧
       diskHolds d' 0 (fun _ => 7)) ∧
    (∃ s', (initBPM dm7 1).fetch_page 0 = .ok s' 0 ∧
       ∃ f', s'.pool.frames[0]? = some f' ∧ f'.buffer.page_id = 0 ∧
         PageEq f'.buffer.page (fun _ => 7)) := by
  refine ⟨⟨_, _, rfl, rfl, by decide, ?_⟩, ⟨_, _, rfl, rfl, by decide, ?_⟩,
    ⟨_, rfl, ?_⟩, ⟨_, rfl, ?_⟩⟩
  · exact C5_roundtrip.1 sE4 1 _ 0 _ (by decide) rfl rfl (by decide)
  · exact C5_roundtrip.2.1 sE4 _ 0 _ rfl rfl (by decide)
  · exact C5_roundtrip.2.2.1 dm7 0 (fun _ => 7) 1 (fun _ => 2) _
      ⟨_, rfl, fun i _ => rfl⟩ (by decide) rfl
  · exact C5_roundtrip.2.2.2 (initBPM dm7 1) 0 (fun _ => 7) _ 0 rfl
      (by decide) ⟨_, rfl, fun i _ => rfl⟩ rfl
